import Mathlib

/-!
Verification of the Markdown-summarizer repository (`src/1.py` sequential
variant and `src/App.py` pooled variant).

The development shallowly embeds the parts of the program the claims are
about:

* the front-matter strip `re.sub(r'---\narticleGPT:.*?\n---\n', '', content,
  flags=re.DOTALL)` in `process_markdown_file` (both variants, identical
  line), as an executable scanner over `List Char`;
* `process_markdown_file` itself, with the file system restricted to the one
  file being processed, the adapter call given as an oracle
  `String → Except String String` (an `Except.error` models the Python call
  raising), and the log as a list of strings;
* the batch loop of `_process_directory_worker` and the retry pass of
  `retry_failed` / `_retry_failed_worker`;
* the model registry of `1.py` (`ModelManager` with `add_model`,
  `set_active_model`, the `delete_model` handler, `to_dict` / `from_dict`)
  over insertion-ordered association lists standing for Python dicts;
* the `App.py` unified `AIModel` (its `generate_summary` dispatch on
  `model_type`, `to_dict` / `from_dict`) and the `add_new_model` handler.
-/

namespace MdUse

/-- The literal head of the regex `---\narticleGPT:.*?\n---\n`. -/
def openPat : List Char := "---\narticleGPT:".data

/-- The literal tail `\n---\n` of the regex. -/
def closePat : List Char := "\n---\n".data

/-- Scan for the first occurrence of `closePat` (the shortest extension of
the non-greedy `.*?`), returning the text after it. -/
def findClose : List Char → Option (List Char)
  | [] => none
  | c :: rest =>
    if closePat.isPrefixOf (c :: rest) then some ((c :: rest).drop closePat.length)
    else findClose rest

/-- Try to match the whole pattern at the current position: the literal head,
then `.*?` up to the first `closePat`.  Returns the text after the match. -/
def matchAt (s : List Char) : Option (List Char) :=
  if openPat.isPrefixOf s then findClose (s.drop openPat.length) else none

/-- Python `re.sub(pattern, '', content, flags=re.DOTALL)`: scan left to
right; at a match, drop it and continue after it; otherwise copy one
character.  `fuel` is a standard totality device; any `fuel ≥ s.length`
computes the fixed scan (each step consumes at least one character). -/
def reSubFuel : Nat → List Char → List Char
  | 0, s => s
  | fuel + 1, s =>
    match matchAt s with
    | some rest => reSubFuel fuel rest
    | none =>
      match s with
      | [] => []
      | c :: t => c :: reSubFuel fuel t

/-- The front-matter strip performed by `process_markdown_file` (step 2). -/
def stripFrontMatter (s : String) : String :=
  String.mk (reSubFuel s.data.length s.data)

/-- Modelled from the spec's words, for refinement comparison with
`stripFrontMatter`: remove at most the FIRST occurrence of the pattern and
keep everything after it untouched. -/
def stripFirstFuel : Nat → List Char → List Char
  | 0, s => s
  | fuel + 1, s =>
    match matchAt s with
    | some rest => rest
    | none =>
      match s with
      | [] => []
      | c :: t => c :: stripFirstFuel fuel t

/-- String-level version of `stripFirstFuel` (the spec's "at most the first
occurrence" reading of the strip). -/
def stripFirstOnly (s : String) : String :=
  String.mk (stripFirstFuel s.data.length s.data)

/-- Does the pattern match anywhere in `s`? -/
def hasMatch : List Char → Bool
  | [] => false
  | c :: t => (matchAt (c :: t)).isSome || hasMatch t

/-- Step 5 of `process_markdown_file`:
`f"---\narticleGPT: {summary}\nshow: true\n---\n\n{content}"`. -/
def composeContent (summary content : String) : String :=
  "---\narticleGPT: " ++ summary ++ "\nshow: true\n---\n\n" ++ content

/-- Result of one `process_markdown_file` call: the returned boolean, the
content of the file on disk afterwards, and the log lines written. -/
structure ProcResult where
  success : Bool
  disk : String
  log : List String
deriving DecidableEq

/-- `process_markdown_file` (1.py lines 915-946; App.py lines 895-926 has the
same structure and literals except the no-model log text).  `disk` is the
current file content; `readErr = some e` models the initial `open`/`read`
raising; `activeName = none` models `get_model()` returning `None` (no
resolvable active model); `gen` is the adapter call on the post-strip
content, `Except.error` modelling a raised exception.  Every raise inside
the `try` lands in the `except` branch, which logs a `❌` line and returns
`False`. -/
def process_markdown_file (path disk : String) (readErr : Option String)
    (activeName : Option String) (gen : String → Except String String) : ProcResult :=
  match readErr with
  | some e => ⟨false, disk, ["❌ 处理失败 " ++ path ++ ": " ++ e]⟩
  | none =>
    let content := stripFrontMatter disk
    match activeName with
    | none => ⟨false, disk, ["错误：未配置AI模型"]⟩
    | some name =>
      match gen content with
      | Except.error e =>
        ⟨false, disk, ["使用模型: " ++ name, "❌ 处理失败 " ++ path ++ ": " ++ e]⟩
      | Except.ok summary =>
        ⟨true, composeContent summary content,
          ["使用模型: " ++ name, "✅ 成功处理: " ++ path]⟩

/-- Outcome of one dispatched file in the batch loop: the processor returned
`True`, returned `False`, or (pooled variant) `future.result()` raised. -/
inductive Outcome where
  | success : Outcome
  | failure : Outcome
  | raised : String → Outcome
deriving DecidableEq

/-- Did the file count as successfully processed? -/
def isSuccess : Outcome → Bool
  | Outcome.success => true
  | _ => false

/-- One iteration of the batch loop over `(completed, failed, failed_files)`:
`completed += 1` on success, otherwise `failed += 1` and
`failed_files.append(file)` (the `except` arm of the pooled variant also
takes the failure path). -/
def batchStep (outcome : String → Outcome) (acc : Nat × Nat × List String)
    (file : String) : Nat × Nat × List String :=
  match outcome file with
  | Outcome.success => (acc.1 + 1, acc.2.1, acc.2.2)
  | Outcome.failure => (acc.1, acc.2.1 + 1, acc.2.2 ++ [file])
  | Outcome.raised _ => (acc.1, acc.2.1 + 1, acc.2.2 ++ [file])

/-- The dispatch loop of `_process_directory_worker` over the discovered
Markdown files, starting from `completed = failed = 0` and the
`failed_files` list cleared by `start_processing`. -/
def process_directory (files : List String) (outcome : String → Outcome) :
    Nat × Nat × List String :=
  files.foldl (batchStep outcome) (0, 0, [])

/-- The mutable state the retry machinery works on. -/
structure SummarizerState where
  failed_files : List String
deriving DecidableEq

/-- `retry_failed` + `_retry_failed_worker`: early-return when there is
nothing to retry; otherwise copy `failed_files`, clear it, and re-run the
dispatch loop over exactly the copied subset, appending new failures to the
cleared list.  Returns `(completed, failed, new state)`. -/
def retry_failed (st : SummarizerState) (outcome : String → Outcome) :
    Option (Nat × Nat × SummarizerState) :=
  if st.failed_files = [] then none
  else
    let work := st.failed_files
    let cleared : List String := []
    let r := work.foldl (batchStep outcome) (0, 0, cleared)
    some (r.1, r.2.1, ⟨r.2.2⟩)

/-! Python dicts as insertion-ordered association lists. -/

/-- `d.get(k)` / `d[k]`: first binding of `k`. -/
def dictGet (k : String) : List (String × α) → Option α
  | [] => none
  | (k', v) :: rest => if k' = k then some v else dictGet k rest

/-- `d[k] = v`: replace in place if the key exists, else append. -/
def dictInsert (k : String) (v : α) : List (String × α) → List (String × α)
  | [] => [(k, v)]
  | (k', v') :: rest =>
    if k' = k then (k, v) :: rest else (k', v') :: dictInsert k v rest

/-- `del d[k]`: drop the binding of `k`. -/
def dictRemove (k : String) : List (String × α) → List (String × α)
  | [] => []
  | (k', v') :: rest => if k' = k then rest else (k', v') :: dictRemove k rest

/-- `list(d.keys())` in insertion order. -/
def dictKeys (l : List (String × α)) : List String := l.map Prod.fst

/-- Python truthiness of an optional string (`None` and `""` are falsy). -/
def pyTruthy : Option String → Bool
  | none => false
  | some s => s ≠ ""

/-- Python `s or d` for strings. -/
def orElseStr (s d : String) : String := if s = "" then d else s

/-! The `1.py` registry: `AIModelConfig` subclasses and `ModelManager`. -/

/-- Which `AIModelConfig` subclass an adapter is. -/
inductive PKind where
  | openaiCompat : PKind
  | anthropic : PKind
  | gemini : PKind
deriving DecidableEq

/-- One adapter configuration: the common `AIModelConfig` fields plus the
model list and selection the subclasses add.  `base_url` is `Option` because
`GeminiModel` passes `base_url=None`. -/
structure AdapterCfg where
  kind : PKind
  name : String
  base_url : Option String
  api_key_name : String
  api_key : String
  models : List String
  selected_model : String
deriving DecidableEq

/-- `ModelManager`: name-keyed adapters plus the active selection
(`active_model` starts as `None`). -/
structure ModelManager where
  models : List (String × AdapterCfg)
  active_model : Option String
deriving DecidableEq

/-- `ModelManager.add_model`: `self.models[name] = config;
if not self.active_model: self.active_model = name`. -/
def ModelManager.add_model (mm : ModelManager) (cfg : AdapterCfg) : ModelManager :=
  { models := dictInsert cfg.name cfg mm.models,
    active_model := if pyTruthy mm.active_model then mm.active_model else some cfg.name }

/-- `ModelManager.set_active_model`: only succeeds when the name exists. -/
def ModelManager.set_active_model (mm : ModelManager) (name : String) :
    Bool × ModelManager :=
  if (dictGet name mm.models).isSome then (true, { mm with active_model := some name })
  else (false, mm)

/-- The spec's error taxonomy entry for removing the last adapter. -/
inductive RegError where
  | invariantError : RegError
deriving DecidableEq

/-- The mid-section of `delete_model`: when the removed name is the active
one, `available_models = [m for m in names if m != model_name]` and, if that
list is non-empty, `set_active_model(available_models[0])`. -/
def rotateActive (mm : ModelManager) (name : String) : ModelManager :=
  if mm.active_model = some name then
    match (dictKeys mm.models).filter (fun k => k ≠ name) with
    | a :: _ => (mm.set_active_model a).2
    | [] => mm
  else mm

/-- `ModelConfigFrame.delete_model` (1.py lines 443-464; App.py's
`delete_model` has the same shape on its own state): reject when at most one
entry remains; after the confirmation dialog (`confirm`), if the removed name
is the active one, activate the first remaining name in iteration order
(`rotateActive`), then delete the entry if present. -/
def ModelManager.delete_model (mm : ModelManager) (name : String) (confirm : Bool) :
    Except RegError ModelManager :=
  if mm.models.length ≤ 1 then Except.error RegError.invariantError
  else if confirm = false then Except.ok mm
  else if (dictGet name (rotateActive mm name).models).isSome then
    Except.ok { rotateActive mm name with
      models := dictRemove name (rotateActive mm name).models }
  else Except.ok (rotateActive mm name)

/-- The registry invariant of the spec: `active_model`, when set, is a key of
the mapping. -/
def ActiveKeyInv (mm : ModelManager) : Prop :=
  ∀ x, mm.active_model = some x → x ∈ dictKeys mm.models

/-- The registry operations a user can drive. -/
inductive RegOp where
  | add : AdapterCfg → RegOp
  | setActive : String → RegOp
  | remove : String → Bool → RegOp

/-- Apply one operation; a rejected `remove` leaves the registry unchanged. -/
def applyOp (mm : ModelManager) : RegOp → ModelManager
  | RegOp.add cfg => mm.add_model cfg
  | RegOp.setActive n => (mm.set_active_model n).2
  | RegOp.remove n c =>
    match mm.delete_model n c with
    | Except.ok mm' => mm'
    | Except.error _ => mm

/-! Serialization of the `1.py` registry. -/

/-- `AnthropicModel`'s default model list. -/
def anthropicDefaultModels : List String :=
  ["claude-3-opus-20240229", "claude-3-sonnet-20240229", "claude-3-haiku-20240307"]

/-- `GeminiModel`'s default model list. -/
def geminiDefaultModels : List String :=
  ["gemini-1.5-pro", "gemini-1.5-flash"]

/-- A serialized adapter, i.e. the dict written by `to_dict`.  `name`,
`base_url` and `api_key_name` are read with `data[...]` and are always
present; `api_key`, `models` and `selected_model` are read with
`data.get(...)` and may be absent (`GeminiModel` inherits the base `to_dict`
and writes neither `models` nor `selected_model`). -/
structure AdapterRecord where
  name : String
  base_url : Option String
  api_key_name : String
  api_key : Option String
  models : Option (List String)
  selected_model : Option String
deriving DecidableEq

/-- The `to_dict` of the adapter classes: the base fields, plus `models` and
`selected_model` for `OpenAICompatibleModel` and `AnthropicModel` only. -/
def adapterToDict (c : AdapterCfg) : AdapterRecord :=
  match c.kind with
  | PKind.gemini => ⟨c.name, c.base_url, c.api_key_name, some c.api_key, none, none⟩
  | _ => ⟨c.name, c.base_url, c.api_key_name, some c.api_key, some c.models,
      some c.selected_model⟩

/-- `ModelManager.from_dict`'s per-entry reconstruction: the class is chosen
by `model_data.get("name")` (`"anthropic"` / `"gemini"` / otherwise
OpenAI-compatible).  `AnthropicModel` and `GeminiModel` inherit the base
`AIModelConfig.from_dict`, which calls the constructor with only
`(name, base_url, api_key_name)` — so their model list and selection come
from the class defaults, not from the record.  Each path ends with
`instance.api_key = data.get("api_key", "")`; the `os.getenv` value assigned
by the constructor is always overwritten there. -/
def adapterFromDict (r : AdapterRecord) : AdapterCfg :=
  if r.name = "anthropic" then
    { kind := PKind.anthropic, name := r.name, base_url := r.base_url,
      api_key_name := orElseStr r.api_key_name "ANTHROPIC_API_KEY",
      api_key := r.api_key.getD "",
      models := anthropicDefaultModels,
      selected_model := "claude-3-opus-20240229" }
  else if r.name = "gemini" then
    { kind := PKind.gemini, name := r.name, base_url := r.base_url,
      api_key_name := orElseStr r.api_key_name "GEMINI_API_KEY",
      api_key := r.api_key.getD "",
      models := geminiDefaultModels,
      selected_model := "gemini-1.5-pro" }
  else
    let models := r.models.getD []
    { kind := PKind.openaiCompat, name := r.name, base_url := r.base_url,
      api_key_name := orElseStr r.api_key_name (r.name.toUpper ++ "_API_KEY"),
      api_key := r.api_key.getD "",
      models := models,
      selected_model := r.selected_model.getD (models.headD "") }

/-- The dict written by `ModelManager.to_dict`. -/
structure ManagerRecord where
  models : List (String × AdapterRecord)
  active_model : Option String
deriving DecidableEq

/-- `ModelManager.to_dict`. -/
def ModelManager.to_dict (mm : ModelManager) : ManagerRecord :=
  ⟨mm.models.map (fun p => (p.1, adapterToDict p.2)), mm.active_model⟩

/-- The fold part of `ModelManager.from_dict`: rebuild the manager by calling
`add_model` on each reconstructed entry in dict order, starting empty. -/
def fromDictFold (d : ManagerRecord) : ModelManager :=
  d.models.foldl (fun acc p => acc.add_model (adapterFromDict p.2)) ⟨[], none⟩

/-- `ModelManager.from_dict`: rebuild via `add_model` in dict order, then set
`active_model` only when the saved value is truthy
(`if active_model and active_model in manager.models`) and present. -/
def ModelManager.from_dict (d : ManagerRecord) : ModelManager :=
  match d.active_model with
  | some a =>
    if a ≠ "" ∧ (dictGet a (fromDictFold d).models).isSome then
      { fromDictFold d with active_model := some a }
    else fromDictFold d
  | none => fromDictFold d

/-! The `App.py` unified model class and its handlers. -/

/-- `App.py`'s `AIModel`. -/
structure AIModel where
  name : String
  base_url : String
  api_key_name : String
  api_key : String
  models : List String
  selected_model : String
  model_type : String
deriving DecidableEq

/-- The literal `AIModel.generate_summary` returns for an unsupported
`model_type`. -/
def unsupportedModelError : String := "错误：不支持的模型类型"

/-- `prompt_template.format(max_length=..., content=...)`. -/
def formatTemplate (template : String) (max_length : Nat) (content : String) : String :=
  (template.replace "{max_length}" (toString max_length)).replace "{content}" content

/-- `AIModel.generate_summary` (App.py lines 36-82): format the prompt, then
dispatch on `model_type`.  Each of the three supported branches performs one
network round trip, modelled by the oracle `net` on the formatted prompt; any
other `model_type` returns the literal error string without calling out. -/
def AIModel.generate_summary (m : AIModel) (net : String → Except String String)
    (content : String) (max_length : Nat) (prompt_template : String) :
    Except String String :=
  let prompt := formatTemplate prompt_template max_length content
  if m.model_type = "openai" then net prompt
  else if m.model_type = "anthropic" then net prompt
  else if m.model_type = "gemini" then net prompt
  else Except.ok unsupportedModelError

/-- The dict written by `AIModel.to_dict`; `models`, `selected_model`,
`model_type` and `api_key` are read back with `data.get`. -/
structure AIModelRecord where
  name : String
  base_url : String
  api_key_name : String
  api_key : Option String
  models : Option (List String)
  selected_model : Option String
  model_type : Option String
deriving DecidableEq

/-- `AIModel.to_dict`: every field. -/
def AIModel.to_dict (m : AIModel) : AIModelRecord :=
  ⟨m.name, m.base_url, m.api_key_name, some m.api_key, some m.models,
    some m.selected_model, some m.model_type⟩

/-- `AIModel.from_dict`: reconstruct through `__init__` (which applies the
`api_key_name or f"{name.upper()}_API_KEY"`, `models or []` and
`models[0] if models else ""` defaults), then overwrite `api_key` and
`selected_model` from the record. -/
def AIModel.from_dict (r : AIModelRecord) : AIModel :=
  let models := r.models.getD []
  { name := r.name, base_url := r.base_url,
    api_key_name := orElseStr r.api_key_name (r.name.toUpper ++ "_API_KEY"),
    api_key := r.api_key.getD "",
    models := models,
    selected_model := r.selected_model.getD (models.headD ""),
    model_type := r.model_type.getD "generic" }

/-- The slice of `MarkdownSummarizer` state `add_new_model` works on. -/
structure AppState where
  models : List (String × AIModel)
  active_model : Option String
deriving DecidableEq

/-- What `ModelAddDialog.confirm` hands back. -/
structure DialogResult where
  name : String
  base_url : String
  api_key : String
  model_id : String
  model_type : String
deriving DecidableEq

/-- `MarkdownSummarizer.add_new_model` (App.py lines 741-774): reject a
duplicate name; otherwise build the `AIModel`, overwrite its `api_key`,
insert it, and make it the active model unconditionally. -/
def add_new_model (st : AppState) (res : DialogResult) : AppState :=
  if (dictGet res.name st.models).isSome then st
  else
    let m : AIModel :=
      { name := res.name, base_url := res.base_url,
        api_key_name := res.name.toUpper ++ "_API_KEY",
        api_key := res.api_key,
        models := [res.model_id], selected_model := res.model_id,
        model_type := res.model_type }
    { models := dictInsert res.name m st.models, active_model := some res.name }

/-! Concrete sample values used for closed evaluations. -/

/-- A sample OpenAI-compatible adapter named `"A"`. -/
def sampleCfgA : AdapterCfg :=
  { kind := PKind.openaiCompat, name := "A", base_url := some "https://a.example",
    api_key_name := "A_API_KEY", api_key := "ka", models := ["m1"],
    selected_model := "m1" }

/-- A sample OpenAI-compatible adapter named `"B"`. -/
def sampleCfgB : AdapterCfg :=
  { kind := PKind.openaiCompat, name := "B", base_url := some "https://b.example",
    api_key_name := "B_API_KEY", api_key := "kb", models := ["m2"],
    selected_model := "m2" }

/-- An OpenAI-compatible adapter that a user happened to name `"anthropic"`
(the add dialog builds exactly such adapters from any name). -/
def cfgNamedAnthropic : AdapterCfg :=
  { kind := PKind.openaiCompat, name := "anthropic",
    base_url := some "https://x.example", api_key_name := "X_API_KEY",
    api_key := "kx", models := ["m1", "m2"], selected_model := "m2" }

/-- A singleton registry. -/
def mmSingleton : ModelManager := ⟨[("A", sampleCfgA)], some "A"⟩

/-- A two-entry registry with `"A"` active. -/
def mmPair : ModelManager := ⟨[("A", sampleCfgA), ("B", sampleCfgB)], some "A"⟩

/-- What `mmPair` becomes after deleting the active `"A"`. -/
def mmPairDeleted : ModelManager := ⟨[("B", sampleCfgB)], some "B"⟩

/-- A registry holding the `"anthropic"`-named OpenAI-compatible adapter. -/
def mmNamedAnthropic : ModelManager := ⟨[("anthropic", cfgNamedAnthropic)], some "anthropic"⟩

/-- A sample `App.py` model. -/
def sampleAIModelA : AIModel :=
  { name := "A", base_url := "https://a.example", api_key_name := "A_API_KEY",
    api_key := "ka", models := ["m1"], selected_model := "m1",
    model_type := "openai" }

/-- A sample generic-typed `App.py` model. -/
def sampleGenericModel : AIModel :=
  { name := "G", base_url := "https://g.example", api_key_name := "G_API_KEY",
    api_key := "kg", models := ["m"], selected_model := "m",
    model_type := "generic" }

/-- App state with model `"A"` present and active. -/
def appStateA : AppState := ⟨[("A", sampleAIModelA)], some "A"⟩

/-- Dialog result adding a model named `"B"`. -/
def dialogResB : DialogResult := ⟨"B", "https://b.example", "kb", "m2", "openai"⟩

/-! Helper lemmas about the front-matter scanner. -/

theorem closePat_eq : closePat = ['\n', '-', '-', '-', '\n'] := by decide

theorem matchAt_nil : matchAt [] = none := by decide

theorem reSubFuel_nil : ∀ f, reSubFuel f [] = [] := by
  intro f
  cases f with
  | zero => rfl
  | succ f => rfl

theorem reSubFuel_succ (f : Nat) (s : List Char) :
    reSubFuel (f + 1) s =
      match matchAt s with
      | some rest => reSubFuel f rest
      | none =>
        match s with
        | [] => []
        | c :: t => c :: reSubFuel f t := rfl

theorem findClose_length {s r : List Char} (h : findClose s = some r) :
    r.length < s.length := by
  induction s with
  | nil => simp [findClose] at h
  | cons c rest ih =>
    rw [findClose] at h
    split at h
    · rename_i hpre
      have hlen : closePat.length ≤ (c :: rest).length :=
        (List.isPrefixOf_iff_prefix.mp hpre).length_le
      have h5 : closePat.length = 5 := by decide
      injection h with h'
      subst h'
      rw [List.length_drop]
      rw [h5] at hlen ⊢
      simp only [List.length_cons] at hlen ⊢
      omega
    · have := ih h
      simp only [List.length_cons]
      omega

theorem matchAt_length {s r : List Char} (h : matchAt s = some r) :
    r.length < s.length := by
  rw [matchAt] at h
  split at h
  · rename_i hpre
    have h1 := findClose_length h
    have h2 : openPat.length ≤ s.length :=
      (List.isPrefixOf_iff_prefix.mp hpre).length_le
    have h3 : openPat.length = 15 := by decide
    rw [List.length_drop] at h1
    omega
  · exact absurd h (by simp)

theorem reSubFuel_congr (f₁ f₂ : Nat) (s : List Char)
    (h₁ : s.length ≤ f₁) (h₂ : s.length ≤ f₂) :
    reSubFuel f₁ s = reSubFuel f₂ s := by
  induction f₁ generalizing f₂ s with
  | zero =>
    have hs : s = [] := List.length_eq_zero.mp (Nat.le_zero.mp h₁)
    subst hs
    rw [reSubFuel_nil, reSubFuel_nil]
  | succ f ih =>
    cases f₂ with
    | zero =>
      have hs : s = [] := List.length_eq_zero.mp (Nat.le_zero.mp h₂)
      subst hs
      rw [reSubFuel_nil, reSubFuel_nil]
    | succ g =>
      rw [reSubFuel_succ, reSubFuel_succ]
      cases hm : matchAt s with
      | some rest =>
        have hr := matchAt_length hm
        exact ih g rest (by omega) (by omega)
      | none =>
        cases s with
        | nil => rfl
        | cons c t =>
          simp only [List.length_cons] at h₁ h₂
          exact congrArg (c :: ·) (ih g t (by omega) (by omega))

theorem reSubFuel_of_not_hasMatch :
    ∀ (f : Nat) (s : List Char), s.length ≤ f → hasMatch s = false →
      reSubFuel f s = s := by
  intro f
  induction f with
  | zero =>
    intro s h _
    have hs : s = [] := List.length_eq_zero.mp (Nat.le_zero.mp h)
    subst hs; rfl
  | succ f ih =>
    intro s hlen hnm
    rw [reSubFuel_succ]
    cases s with
    | nil => rw [matchAt_nil]

    | cons c t =>
      rw [hasMatch, Bool.or_eq_false_iff] at hnm
      have h1 : matchAt (c :: t) = none := by
        cases hm : matchAt (c :: t) with
        | none => rfl
        | some r => rw [hm] at hnm; simp at hnm
      rw [h1]
      simp only [List.length_cons] at hlen
      exact congrArg (c :: ·) (ih t (by omega) hnm.2)

theorem reSubFuel_step {s rest : List Char} (f : Nat) (h : matchAt s = some rest)
    (hf : s.length ≤ f) : reSubFuel f s = reSubFuel rest.length rest := by
  have hr := matchAt_length h
  cases f with
  | zero =>
    have hs : s = [] := List.length_eq_zero.mp (Nat.le_zero.mp hf)
    subst hs
    rw [matchAt_nil] at h
    cases h
  | succ f =>
    rw [reSubFuel_succ, h]
    exact reSubFuel_congr f rest.length rest (by omega) (Nat.le_refl _)

theorem findClose_append_no_nl :
    ∀ (xs t : List Char), (∀ c ∈ xs, c ≠ '\n') →
      findClose (xs ++ t) = findClose t := by
  intro xs
  induction xs with
  | nil => intro t _; rfl
  | cons c xs ih =>
    intro t h
    have hc : c ≠ '\n' := h c (by simp)
    rw [List.cons_append, findClose]
    have hpre : closePat.isPrefixOf (c :: (xs ++ t)) = false := by
      rw [closePat_eq]
      simp only [List.isPrefixOf, Bool.and_eq_false_imp, beq_iff_eq]
      intro h'
      exact absurd h'.symm hc
    rw [hpre]
    simp only [Bool.false_eq_true, if_false]
    exact ih t (fun c' hc' => h c' (by simp [hc']))

theorem closePat_not_prefix_cons₂ (c₂ : Char) (l : List Char) (h : c₂ ≠ '-') :
    closePat.isPrefixOf ('\n' :: c₂ :: l) = false := by
  rw [closePat_eq]
  simp only [List.isPrefixOf, Bool.and_eq_false_imp, beq_iff_eq]
  intro _ h'
  exact absurd h'.symm h

theorem findClose_self (t : List Char) : findClose (closePat ++ t) = some t := by
  have he : closePat ++ t = '\n' :: (['-', '-', '-', '\n'] ++ t) := by
    rw [closePat_eq]; rfl
  rw [he, findClose]
  have hpre : closePat.isPrefixOf ('\n' :: (['-', '-', '-', '\n'] ++ t)) = true := by
    rw [← he]
    exact List.isPrefixOf_iff_prefix.mpr (List.prefix_append _ _)
  rw [hpre]
  simp only [if_true]
  rw [← he, List.drop_left' (by decide)]

theorem findClose_tail (C : List Char) :
    findClose ("\nshow: true\n---\n\n".data ++ C) = some ('\n' :: C) := by
  have hdecomp : "\nshow: true\n---\n\n".data =
      '\n' :: ("show: true".data ++ (closePat ++ ['\n'])) := by decide
  rw [hdecomp, List.cons_append, findClose]
  have hs : "show: true".data = 's' :: "how: true".data := by decide
  have hpre : closePat.isPrefixOf
      ('\n' :: (("show: true".data ++ (closePat ++ ['\n'])) ++ C)) = false := by
    rw [hs, List.cons_append, List.cons_append]
    exact closePat_not_prefix_cons₂ 's' _ (by decide)
  rw [hpre]
  simp only [Bool.false_eq_true, if_false]
  rw [List.append_assoc,
    findClose_append_no_nl "show: true".data ((closePat ++ ['\n']) ++ C) (by decide),
    List.append_assoc, List.singleton_append, findClose_self]

theorem composeContent_data (S C : String) :
    (composeContent S C).data =
      openPat ++ ((' ' :: S.data) ++ ("\nshow: true\n---\n\n".data ++ C.data)) := by
  rw [composeContent]
  rw [String.data_append, String.data_append, String.data_append]
  have h1 : "---\narticleGPT: ".data = openPat ++ [' '] := by decide
  rw [h1]
  simp [List.append_assoc]

theorem matchAt_composeContent (S C : String) (hS : ∀ c ∈ S.data, c ≠ '\n') :
    matchAt (composeContent S C).data = some ('\n' :: C.data) := by
  rw [composeContent_data, matchAt]
  have hpre : openPat.isPrefixOf
      (openPat ++ ((' ' :: S.data) ++ ("\nshow: true\n---\n\n".data ++ C.data))) = true :=
    List.isPrefixOf_iff_prefix.mpr (List.prefix_append _ _)
  rw [hpre]
  simp only [if_true]
  rw [List.drop_left]
  rw [show (' ' :: S.data) ++ ("\nshow: true\n---\n\n".data ++ C.data) =
      (' ' :: S.data) ++ ("\nshow: true\n---\n\n".data ++ C.data) from rfl]
  rw [findClose_append_no_nl (' ' :: S.data) _ ?_, findClose_tail]
  intro c hc
  rcases List.mem_cons.mp hc with h | h
  · subst h; decide
  · exact hS c h

theorem matchAt_cons_not_dash (c : Char) (l : List Char) (h : c ≠ '-') :
    matchAt (c :: l) = none := by
  rw [matchAt]
  have hpre : openPat.isPrefixOf (c :: l) = false := by
    have ho : openPat = '-' :: "--\narticleGPT:".data := by decide
    rw [ho]
    simp only [List.isPrefixOf, Bool.and_eq_false_imp, beq_iff_eq]
    intro h'
    exact absurd h'.symm h
  rw [hpre]
  simp

theorem strip_composeContent (S C : String)
    (hS : ∀ c ∈ S.data, c ≠ '\n') (hC : hasMatch C.data = false) :
    stripFrontMatter (composeContent S C) = "\n" ++ C := by
  rw [stripFrontMatter]
  rw [reSubFuel_step _ (matchAt_composeContent S C hS) (Nat.le_refl _)]
  rw [show ('\n' :: C.data).length = C.data.length + 1 from by simp]
  rw [reSubFuel]
  rw [matchAt_cons_not_dash '\n' C.data (by decide)]
  rw [reSubFuel_of_not_hasMatch C.data.length C.data (Nat.le_refl _) hC]
  have hd : ("\n" ++ C).data = '\n' :: C.data := by
    rw [String.data_append]
    rfl
  rw [← hd]

/-! Helper lemmas about the batch fold. -/

theorem foldl_batchStep (o : String → Outcome) :
    ∀ (files : List String) (c f : Nat) (fl : List String),
      files.foldl (batchStep o) (c, f, fl) =
        (c + files.countP (fun x => isSuccess (o x)),
         f + files.countP (fun x => !isSuccess (o x)),
         fl ++ files.filter (fun x => !isSuccess (o x))) := by
  intro files
  induction files with
  | nil => intro c f fl; simp
  | cons x xs ih =>
    intro c f fl
    rw [List.foldl_cons]
    cases ho : o x with
    | success =>
      rw [show batchStep o (c, f, fl) x = (c + 1, f, fl) from by
        simp [batchStep, ho]]
      rw [ih]
      simp [List.countP_cons, List.filter_cons, ho, isSuccess]
      omega
    | failure =>
      rw [show batchStep o (c, f, fl) x = (c, f + 1, fl ++ [x]) from by
        simp [batchStep, ho]]
      rw [ih]
      simp [List.countP_cons, List.filter_cons, ho, isSuccess]
      omega
    | raised msg =>
      rw [show batchStep o (c, f, fl) x = (c, f + 1, fl ++ [x]) from by
        simp [batchStep, ho]]
      rw [ih]
      simp [List.countP_cons, List.filter_cons, ho, isSuccess]
      omega

/-! The claims. -/

/-- C1: for every file whose post-strip content is `C`, when the adapter
returns summary `S`, processing overwrites the file with exactly
`"---\narticleGPT: " ++ S ++ "\nshow: true\n---\n\n" ++ C` (and reports
success). -/
theorem c1_front_matter_written (path disk name : String)
    (gen : String → Except String String) (S : String)
    (h : gen (stripFrontMatter disk) = Except.ok S) :
    (process_markdown_file path disk none (some name) gen).success = true ∧
    (process_markdown_file path disk none (some name) gen).disk =
      "---\narticleGPT: " ++ S ++ "\nshow: true\n---\n\n" ++ stripFrontMatter disk := by
  simp [process_markdown_file, h, composeContent]

/-- Witness for C1 at the spec's example: content `"Hello world"` with a stub
adapter returning `"Greeting."` yields exactly the spec's string. -/
theorem c1_front_matter_written_witness :
    (process_markdown_file "a.md" "Hello world" none (some "深度求索")
        (fun _ => Except.ok "Greeting.")).disk =
      "---\narticleGPT: Greeting.\nshow: true\n---\n\nHello world" := by
  have h := (c1_front_matter_written "a.md" "Hello world" "深度求索"
    (fun _ => Except.ok "Greeting.") "Greeting." rfl).2
  rw [h]
  decide

/-- C2 counterexample: the strip is `re.sub` with no count, so on a file
holding two front-matter blocks it removes BOTH, while the claim's "at most
the first occurrence" reading (`stripFirstOnly`) keeps the second. -/
theorem c2_strip_counterexample :
    stripFrontMatter "---\narticleGPT: a\n---\nX---\narticleGPT: b\n---\nY" = "XY" ∧
    stripFirstOnly "---\narticleGPT: a\n---\nX---\narticleGPT: b\n---\nY" =
      "X---\narticleGPT: b\n---\nY" ∧
    stripFrontMatter "---\narticleGPT: a\n---\nX---\narticleGPT: b\n---\nY" ≠
      stripFirstOnly "---\narticleGPT: a\n---\nX---\narticleGPT: b\n---\nY" := by
  refine ⟨by decide, by decide, by decide⟩

/-- C2 (amended): the strip removes every non-overlapping occurrence of the
pattern (leftmost first, shortest match), not only the first; content without
any occurrence is unchanged; and re-processing an already-processed file
(single-line summary, block-free body) removes exactly the one prior
front-matter block — leaving the second separator newline — before a new
block is added, so blocks never accumulate. -/
theorem c2_strip_amended :
    (∀ s : String, hasMatch s.data = false → stripFrontMatter s = s) ∧
    (∀ S C : String, (∀ c ∈ S.data, c ≠ '\n') → hasMatch C.data = false →
      stripFrontMatter (composeContent S C) = "\n" ++ C) := by
  constructor
  · intro s h
    rw [stripFrontMatter,
      reSubFuel_of_not_hasMatch s.data.length s.data (Nat.le_refl _) h]
  · exact strip_composeContent

/-- Witness for C2 (amended) on concrete inputs. -/
theorem c2_strip_amended_witness :
    stripFrontMatter "Hello world" = "Hello world" ∧
    stripFrontMatter (composeContent "Greeting." "Hello") = "\n" ++ "Hello" :=
  ⟨c2_strip_amended.1 "Hello world" (by decide),
   c2_strip_amended.2 "Greeting." "Hello" (by decide) (by decide)⟩

/-- C3: after a batch run, the reported success count plus the reported
failure count equals the number of discovered files, the recorded
`failed_files` are exactly the non-successful files, and every counted
failure is recorded there (failure count = length of `failed_files`). -/
theorem c3_batch_counts (files : List String) (o : String → Outcome) :
    (process_directory files o).1 + (process_directory files o).2.1 = files.length ∧
    (process_directory files o).2.2 = files.filter (fun f => !isSuccess (o f)) ∧
    (process_directory files o).2.1 = (process_directory files o).2.2.length := by
  rw [process_directory, foldl_batchStep]
  refine ⟨?_, by simp, ?_⟩
  · simp only [Nat.zero_add]
    induction files with
    | nil => rfl
    | cons x xs ih =>
      cases hx : isSuccess (o x) <;>
        simp [List.countP_cons, hx] <;> omega
  · simp [List.countP_eq_length_filter]

/-- C4: a retry pass re-runs processing over exactly the previous failed
subset, starting from a cleared `failed_files`, and afterwards `failed_files`
holds exactly (hence only) the files that failed in that pass. -/
theorem c4_retry_invariant (st : SummarizerState) (o : String → Outcome)
    (h : st.failed_files ≠ []) :
    retry_failed st o =
      some (st.failed_files.countP (fun f => isSuccess (o f)),
            st.failed_files.countP (fun f => !isSuccess (o f)),
            ⟨st.failed_files.filter (fun f => !isSuccess (o f))⟩) ∧
    ∀ f, f ∈ st.failed_files.filter (fun f => !isSuccess (o f)) →
      f ∈ st.failed_files ∧ isSuccess (o f) = false := by
  constructor
  · rw [retry_failed, if_neg h]
    simp only [foldl_batchStep]
    simp
  · intro f hf
    exact ⟨List.mem_of_mem_filter hf, by simpa using List.of_mem_filter hf⟩

/-- Witness for C4: retrying `["a.md", "b.md"]` where only `"a.md"` now
succeeds leaves exactly `["b.md"]` failed. -/
theorem c4_retry_invariant_witness :
    retry_failed ⟨["a.md", "b.md"]⟩
        (fun f => if f = "a.md" then Outcome.success else Outcome.failure) =
      some (1, 1, ⟨["b.md"]⟩) := by
  have h := (c4_retry_invariant ⟨["a.md", "b.md"]⟩
    (fun f => if f = "a.md" then Outcome.success else Outcome.failure)
    (by decide)).1
  rw [h]
  decide

/-- C7: `process_markdown_file` swallows every error: a read error yields
`false` plus a `❌` log line; a missing active model yields `false`; an
adapter raise yields `false` plus a `❌` log line; and the batch runner
records any non-successful path in `failed_files` instead of aborting. -/
theorem c7_errors_swallowed :
    (∀ path disk e activeName gen,
      (process_markdown_file path disk (some e) activeName gen).success = false ∧
      ("❌ 处理失败 " ++ path ++ ": " ++ e) ∈
        (process_markdown_file path disk (some e) activeName gen).log) ∧
    (∀ path disk gen,
      (process_markdown_file path disk none none gen).success = false) ∧
    (∀ path disk name gen e, gen (stripFrontMatter disk) = Except.error e →
      (process_markdown_file path disk none (some name) gen).success = false ∧
      ("❌ 处理失败 " ++ path ++ ": " ++ e) ∈
        (process_markdown_file path disk none (some name) gen).log) ∧
    (∀ (files : List String) (o : String → Outcome) (f : String),
      f ∈ files → isSuccess (o f) = false →
      f ∈ (process_directory files o).2.2) := by
  refine ⟨?_, ?_, ?_, ?_⟩
  · intro path disk e activeName gen
    simp [process_markdown_file]
  · intro path disk gen
    simp [process_markdown_file]
  · intro path disk name gen e hg
    simp [process_markdown_file, hg]
  · intro files o f hf hns
    rw [process_directory, foldl_batchStep]
    simp only [List.nil_append]
    exact List.mem_filter.mpr ⟨hf, by simp [hns]⟩

/-- Witness for C7: a raising adapter gives `false` plus a `❌` line, and a
failing path lands in `failed_files`. -/
theorem c7_errors_swallowed_witness :
    ((process_markdown_file "f.md" "body" none (some "m")
        (fun _ => Except.error "boom")).success = false ∧
      ("❌ 处理失败 " ++ "f.md" ++ ": " ++ "boom") ∈
        (process_markdown_file "f.md" "body" none (some "m")
          (fun _ => Except.error "boom")).log) ∧
    "f.md" ∈ (process_directory ["f.md"] (fun _ => Outcome.failure)).2.2 :=
  ⟨c7_errors_swallowed.2.2.1 "f.md" "body" "m"
      (fun _ => Except.error "boom") "boom" rfl,
   c7_errors_swallowed.2.2.2 ["f.md"] (fun _ => Outcome.failure) "f.md"
      (by decide) (by decide)⟩

/-- C8: whenever processing fails (read error, no active model, adapter
raise), the file on disk is unchanged — the write happens only after a
summary was obtained. -/
theorem c8_file_unchanged_on_failure (path disk : String) (readErr : Option String)
    (activeName : Option String) (gen : String → Except String String)
    (h : (process_markdown_file path disk readErr activeName gen).success = false) :
    (process_markdown_file path disk readErr activeName gen).disk = disk := by
  cases readErr with
  | some e => simp [process_markdown_file]
  | none =>
    cases activeName with
    | none => simp [process_markdown_file]
    | some name =>
      cases hg : gen (stripFrontMatter disk) with
      | error e => simp [process_markdown_file, hg]
      | ok summary =>
        exfalso
        simp [process_markdown_file, hg] at h

/-- Witness for C8: with no active model the file content stays intact. -/
theorem c8_file_unchanged_on_failure_witness :
    (process_markdown_file "p.md" "X" none none (fun _ => Except.ok "S")).disk = "X" :=
  c8_file_unchanged_on_failure "p.md" "X" none none (fun _ => Except.ok "S") (by decide)

/-! Helper lemmas about the dict model. -/

theorem dictGet_dictInsert_self (k : String) (v : α) :
    ∀ l : List (String × α), dictGet k (dictInsert k v l) = some v := by
  intro l
  induction l with
  | nil => simp [dictInsert, dictGet]
  | cons p rest ih =>
    obtain ⟨k', v'⟩ := p
    rw [dictInsert]
    by_cases h : k' = k
    · rw [if_pos h, dictGet, if_pos rfl]
    · rw [if_neg h, dictGet, if_neg h]
      exact ih

theorem mem_dictKeys_iff {k : String} :
    ∀ {l : List (String × α)}, k ∈ dictKeys l ↔ (dictGet k l).isSome := by
  intro l
  induction l with
  | nil => simp [dictKeys, dictGet]
  | cons p rest ih =>
    obtain ⟨k', v'⟩ := p
    rw [dictKeys, List.map_cons, List.mem_cons, dictGet]
    by_cases h : k' = k
    · simp [h]
    · have h' : ¬ k = k' := fun hh => h hh.symm
      rw [if_neg h]
      constructor
      · intro hm
        rcases hm with hm | hm
        · exact absurd hm h'
        · exact ih.mp hm
      · intro hs
        exact Or.inr (ih.mpr hs)

theorem mem_dictKeys_dictInsert {x k : String} (v : α) :
    ∀ l : List (String × α), x ∈ dictKeys l → x ∈ dictKeys (dictInsert k v l) := by
  intro l
  induction l with
  | nil => simp [dictKeys]
  | cons p rest ih =>
    obtain ⟨k', v'⟩ := p
    intro hx
    rw [dictKeys, List.map_cons, List.mem_cons] at hx
    rw [dictInsert]
    by_cases h : k' = k
    · rw [if_pos h, dictKeys, List.map_cons]
      subst h
      exact List.mem_cons.mpr (by simpa [dictKeys] using hx)
    · rw [if_neg h, dictKeys, List.map_cons]
      rcases hx with hx | hx
      · exact List.mem_cons.mpr (Or.inl hx)
      · exact List.mem_cons.mpr (Or.inr (ih hx))

theorem self_mem_dictKeys_dictInsert (k : String) (v : α) :
    ∀ l : List (String × α), k ∈ dictKeys (dictInsert k v l) := by
  intro l
  induction l with
  | nil => simp [dictInsert, dictKeys]
  | cons p rest ih =>
    obtain ⟨k', v'⟩ := p
    rw [dictInsert]
    by_cases h : k' = k
    · rw [if_pos h, dictKeys, List.map_cons]
      exact List.mem_cons.mpr (Or.inl rfl)
    · rw [if_neg h, dictKeys, List.map_cons]
      exact List.mem_cons.mpr (Or.inr ih)

theorem mem_dictKeys_dictRemove_of_ne {x k : String} (h : x ≠ k) :
    ∀ l : List (String × α), x ∈ dictKeys l → x ∈ dictKeys (dictRemove k l) := by
  intro l
  induction l with
  | nil => simp [dictKeys]
  | cons p rest ih =>
    obtain ⟨k', v'⟩ := p
    intro hx
    rw [dictKeys, List.map_cons, List.mem_cons] at hx
    rw [dictRemove]
    by_cases hk : k' = k
    · rw [if_pos hk]
      rcases hx with hx | hx
      · exact absurd (hx.trans hk) h
      · exact hx
    · rw [if_neg hk, dictKeys, List.map_cons]
      rcases hx with hx | hx
      · exact List.mem_cons.mpr (Or.inl hx)
      · exact List.mem_cons.mpr (Or.inr (ih hx))

theorem mem_of_mem_dictKeys_dictRemove {x k : String} :
    ∀ l : List (String × α), x ∈ dictKeys (dictRemove k l) → x ∈ dictKeys l := by
  intro l
  induction l with
  | nil => simp [dictRemove, dictKeys]
  | cons p rest ih =>
    obtain ⟨k', v'⟩ := p
    intro hx
    rw [dictRemove] at hx
    rw [dictKeys, List.map_cons]
    by_cases hk : k' = k
    · rw [if_pos hk] at hx
      exact List.mem_cons.mpr (Or.inr hx)
    · rw [if_neg hk, dictKeys, List.map_cons, List.mem_cons] at hx
      rcases hx with hx | hx
      · exact List.mem_cons.mpr (Or.inl hx)
      · exact List.mem_cons.mpr (Or.inr (ih hx))

theorem length_dictRemove {k : String} :
    ∀ l : List (String × α), (dictGet k l).isSome →
      (dictRemove k l).length + 1 = l.length := by
  intro l
  induction l with
  | nil => simp [dictGet]
  | cons p rest ih =>
    obtain ⟨k', v'⟩ := p
    intro hs
    rw [dictGet] at hs
    rw [dictRemove]
    by_cases hk : k' = k
    · rw [if_pos hk]
      simp
    · rw [if_neg hk] at hs ⊢
      simp only [List.length_cons]
      rw [← ih hs]

theorem dictInsert_of_not_mem {k : String} (v : α) :
    ∀ l : List (String × α), k ∉ dictKeys l → dictInsert k v l = l ++ [(k, v)] := by
  intro l
  induction l with
  | nil => intro _; rfl
  | cons p rest ih =>
    obtain ⟨k', v'⟩ := p
    intro hk
    rw [dictKeys, List.map_cons, List.mem_cons] at hk
    push_neg at hk
    rw [dictInsert, if_neg (fun h => hk.1 h.symm), List.cons_append]
    rw [ih (by simpa [dictKeys] using hk.2)]

/-! Helper lemmas about the registry operations. -/

theorem set_active_model_models (mm : ModelManager) (n : String) :
    (mm.set_active_model n).2.models = mm.models := by
  rw [ModelManager.set_active_model]
  by_cases h : (dictGet n mm.models).isSome
  · rw [if_pos h]
  · rw [if_neg h]

theorem set_active_model_of_mem (mm : ModelManager) (n : String)
    (h : (dictGet n mm.models).isSome) :
    (mm.set_active_model n).2 = { mm with active_model := some n } := by
  rw [ModelManager.set_active_model, if_pos h]

theorem rotateActive_avail (mm : ModelManager) (name a : String) (rest : List String)
    (hA : mm.active_model = some name)
    (hf : (dictKeys mm.models).filter (fun k => k ≠ name) = a :: rest) :
    rotateActive mm name = { mm with active_model := some a } := by
  have hamem : a ∈ dictKeys mm.models :=
    List.mem_of_mem_filter (by rw [hf]; exact List.mem_cons_self a rest)
  rw [rotateActive, if_pos hA, hf]
  show (mm.set_active_model a).2 = _
  exact set_active_model_of_mem mm a (mem_dictKeys_iff.mp hamem)

theorem rotateActive_noavail (mm : ModelManager) (name : String)
    (hA : mm.active_model = some name)
    (hf : (dictKeys mm.models).filter (fun k => k ≠ name) = []) :
    rotateActive mm name = mm := by
  rw [rotateActive, if_pos hA, hf]

theorem rotateActive_of_ne (mm : ModelManager) (name : String)
    (hA : ¬ mm.active_model = some name) :
    rotateActive mm name = mm := by
  rw [rotateActive, if_neg hA]

theorem rotateActive_models (mm : ModelManager) (name : String) :
    (rotateActive mm name).models = mm.models := by
  by_cases hA : mm.active_model = some name
  · cases hf : (dictKeys mm.models).filter (fun k => k ≠ name) with
    | nil => rw [rotateActive_noavail mm name hA hf]
    | cons a rest => rw [rotateActive_avail mm name a rest hA hf]
  · rw [rotateActive_of_ne mm name hA]

theorem add_model_inv (mm : ModelManager) (cfg : AdapterCfg)
    (h : ActiveKeyInv mm) : ActiveKeyInv (mm.add_model cfg) := by
  intro x hx
  simp only [ModelManager.add_model] at hx ⊢
  by_cases ht : pyTruthy mm.active_model
  · rw [if_pos ht] at hx
    exact mem_dictKeys_dictInsert cfg mm.models (h x hx)
  · rw [if_neg ht] at hx
    injection hx with hx
    subst hx
    exact self_mem_dictKeys_dictInsert cfg.name cfg mm.models

theorem set_active_model_inv (mm : ModelManager) (n : String)
    (h : ActiveKeyInv mm) : ActiveKeyInv (mm.set_active_model n).2 := by
  rw [ModelManager.set_active_model]
  by_cases hs : (dictGet n mm.models).isSome
  · rw [if_pos hs]
    intro x hx
    injection hx with hx
    subst hx
    exact mem_dictKeys_iff.mpr hs
  · rw [if_neg hs]
    exact h

theorem rotateActive_inv (mm : ModelManager) (name : String)
    (h : ActiveKeyInv mm) : ActiveKeyInv (rotateActive mm name) := by
  by_cases hA : mm.active_model = some name
  · cases hf : (dictKeys mm.models).filter (fun k => k ≠ name) with
    | nil => rw [rotateActive_noavail mm name hA hf]; exact h
    | cons a rest =>
      rw [rotateActive_avail mm name a rest hA hf]
      intro x hx
      have hax : some a = some x := hx
      injection hax with hax
      subst hax
      exact List.mem_of_mem_filter (by rw [hf]; exact List.mem_cons_self a rest)
  · rw [rotateActive_of_ne mm name hA]
    exact h

theorem delete_model_inv (mm : ModelManager) (name : String) (confirm : Bool)
    (h : ActiveKeyInv mm) :
    ∀ mm', mm.delete_model name confirm = Except.ok mm' → ActiveKeyInv mm' := by
  intro mm' hdel
  rw [ModelManager.delete_model] at hdel
  by_cases h1 : mm.models.length ≤ 1
  · rw [if_pos h1] at hdel
    cases hdel
  rw [if_neg h1] at hdel
  by_cases h2 : confirm = false
  · rw [if_pos h2] at hdel
    injection hdel with h'
    subst h'
    exact h
  rw [if_neg h2] at hdel
  have hrotInv : ActiveKeyInv (rotateActive mm name) := rotateActive_inv mm name h
  by_cases hmem : (dictGet name (rotateActive mm name).models).isSome
  · rw [if_pos hmem] at hdel
    injection hdel with h'
    subst h'
    intro x hx
    have hx' : (rotateActive mm name).active_model = some x := hx
    show x ∈ dictKeys (dictRemove name (rotateActive mm name).models)
    rw [rotateActive_models] at hmem ⊢
    by_cases hA : mm.active_model = some name
    · cases hf : (dictKeys mm.models).filter (fun k => k ≠ name) with
      | cons a rest =>
        rw [rotateActive_avail mm name a rest hA hf] at hx'
        have hamem : a ∈ dictKeys mm.models :=
          List.mem_of_mem_filter (by rw [hf]; exact List.mem_cons_self a rest)
        have hane : a ≠ name := by
          have := List.of_mem_filter
            (p := fun k => k ≠ name) (by rw [hf]; exact List.mem_cons_self a rest)
          simpa using this
        have hax : some a = some x := hx'
        injection hax with hax
        subst hax
        exact mem_dictKeys_dictRemove_of_ne hane mm.models hamem
      | nil =>
        rw [rotateActive_noavail mm name hA hf] at hx'
        -- then `x = name`; every key equals `name`, and an entry survives
        have hax : some name = some x := hA ▸ hx'
        injection hax with hax
        subst hax
        have hall : ∀ y ∈ dictKeys mm.models, y = name := by
          intro y hy
          have := List.filter_eq_nil_iff.mp hf y hy
          simpa using this
        have hlen : (dictRemove name mm.models).length + 1 = mm.models.length :=
          length_dictRemove mm.models hmem
        have hpos : 0 < (dictKeys (dictRemove name mm.models)).length := by
          rw [dictKeys, List.length_map]
          omega
        obtain ⟨p, hp⟩ := List.exists_mem_of_length_pos hpos
        have hpm : p ∈ dictKeys mm.models :=
          mem_of_mem_dictKeys_dictRemove mm.models hp
        exact (hall p hpm) ▸ hp
    · rw [rotateActive_of_ne mm name hA] at hx'
      have hxk := h x hx'
      have hxne : x ≠ name := by
        intro he
        exact hA (he ▸ hx')
      exact mem_dictKeys_dictRemove_of_ne hxne mm.models hxk
  · rw [if_neg hmem] at hdel
    injection hdel with h'
    subst h'
    exact hrotInv

theorem applyOp_inv (mm : ModelManager) (op : RegOp)
    (h : ActiveKeyInv mm) : ActiveKeyInv (applyOp mm op) := by
  cases op with
  | add cfg => exact add_model_inv mm cfg h
  | setActive n => exact set_active_model_inv mm n h
  | remove n c =>
    rw [applyOp]
    cases hdel : mm.delete_model n c with
    | ok mm' => exact delete_model_inv mm n c h mm' hdel
    | error _ => exact h

/-- C5: removal from a singleton registry is rejected with the invariant
error; removing the active entry first activates the first remaining name in
iteration order; and `active_model` never points at a missing key after any
sequence of registry operations. -/
theorem c5_registry_invariants :
    (∀ (mm : ModelManager) (name : String) (confirm : Bool),
      mm.models.length = 1 →
      mm.delete_model name confirm = Except.error RegError.invariantError) ∧
    (∀ (mm : ModelManager) (name a : String) (rest : List String),
      mm.active_model = some name →
      (dictKeys mm.models).filter (fun k => k ≠ name) = a :: rest →
      ∀ mm', mm.delete_model name true = Except.ok mm' →
        mm'.active_model = some a) ∧
    (∀ (mm : ModelManager) (ops : List RegOp),
      ActiveKeyInv mm → ActiveKeyInv (ops.foldl applyOp mm)) := by
  refine ⟨?_, ?_, ?_⟩
  · intro mm name confirm hlen
    rw [ModelManager.delete_model, if_pos (by omega)]
  · intro mm name a rest hA hf mm' hdel
    have hrot : (rotateActive mm name).active_model = some a := by
      rw [rotateActive_avail mm name a rest hA hf]
    rw [ModelManager.delete_model] at hdel
    by_cases h1 : mm.models.length ≤ 1
    · rw [if_pos h1] at hdel
      cases hdel
    rw [if_neg h1, if_neg (by simp)] at hdel
    by_cases hmem : (dictGet name (rotateActive mm name).models).isSome
    · rw [if_pos hmem] at hdel
      injection hdel with h'
      subst h'
      exact hrot
    · rw [if_neg hmem] at hdel
      injection hdel with h'
      subst h'
      exact hrot
  · intro mm ops h
    induction ops generalizing mm with
    | nil => exact h
    | cons op ops ih => exact ih (applyOp mm op) (applyOp_inv mm op h)

/-- Witness for C5: deletion from the singleton registry is rejected;
deleting the active `"A"` from the `{A, B}` registry activates `"B"`; a
concrete operation sequence preserves the active-key invariant. -/
theorem c5_registry_invariants_witness :
    ModelManager.delete_model mmSingleton "A" true =
      Except.error RegError.invariantError ∧
    mmPairDeleted.active_model = some "B" ∧
    ActiveKeyInv (List.foldl applyOp mmSingleton
      [RegOp.add sampleCfgB, RegOp.remove "A" true]) := by
  refine ⟨?_, ?_, ?_⟩
  · exact c5_registry_invariants.1 mmSingleton "A" true (by decide)
  · exact c5_registry_invariants.2.1 mmPair "A" "B" [] (by decide) (by decide)
      mmPairDeleted rfl
  · refine c5_registry_invariants.2.2 mmSingleton
      [RegOp.add sampleCfgB, RegOp.remove "A" true] ?_
    intro x hx
    have hx' : x = "A" := by
      have : some "A" = some x := hx
      injection this with h'
      exact h'.symm
    subst hx'
    decide

/-- C9 counterexample: in `App.py`, adding model `"B"` while `"A"` is active
makes `"B"` active — the active selection is NOT unchanged by add. -/
theorem c9_add_counterexample :
    appStateA.active_model = some "A" ∧
    (add_new_model appStateA dialogResB).active_model = some "B" ∧
    (add_new_model appStateA dialogResB).active_model ≠ appStateA.active_model := by
  refine ⟨rfl, by decide, by decide⟩

/-- C9 (amended): `ModelManager.add_model` (1.py) inserts under the name key
and the inserted adapter becomes active exactly when no (truthy) active model
was set, the active selection being unchanged otherwise; `App.py`'s
`add_new_model` rejects duplicate names and always makes a newly added model
the active one. -/
theorem c9_add_model_amended :
    (∀ (mm : ModelManager) (cfg : AdapterCfg),
      dictGet cfg.name (mm.add_model cfg).models = some cfg ∧
      (pyTruthy mm.active_model = false →
        (mm.add_model cfg).active_model = some cfg.name) ∧
      (pyTruthy mm.active_model = true →
        (mm.add_model cfg).active_model = mm.active_model)) ∧
    (∀ (st : AppState) (res : DialogResult),
      dictGet res.name st.models = none →
      (add_new_model st res).active_model = some res.name ∧
      (dictGet res.name (add_new_model st res).models).isSome) := by
  constructor
  · intro mm cfg
    refine ⟨dictGet_dictInsert_self cfg.name cfg mm.models, ?_, ?_⟩
    · intro h
      simp [ModelManager.add_model, h]
    · intro h
      simp [ModelManager.add_model, h]
  · intro st res h
    rw [add_new_model, if_neg (by simp [h])]
    exact ⟨rfl, by simp [dictGet_dictInsert_self]⟩

/-- Witness for C9 (amended): adding to an empty registry activates the new
adapter; adding to a registry with an active model leaves it active; the
`App.py` add always activates the new model. -/
theorem c9_add_model_amended_witness :
    (ModelManager.add_model ⟨[], none⟩ sampleCfgA).active_model = some "A" ∧
    (ModelManager.add_model mmSingleton sampleCfgB).active_model = some "A" ∧
    (add_new_model appStateA dialogResB).active_model = some "B" := by
  refine ⟨?_, ?_, ?_⟩
  · have h := (c9_add_model_amended.1 ⟨[], none⟩ sampleCfgA).2.1 (by decide)
    rw [h]
    rfl
  · have h := (c9_add_model_amended.1 mmSingleton sampleCfgB).2.2 (by decide)
    rw [h]
    rfl
  · exact (c9_add_model_amended.2 appStateA dialogResB (by decide)).1

/-- C10: in the concurrent variant, a `model_type` outside
`{openai, anthropic, gemini}` does not raise: `generate_summary` returns the
literal Chinese error string, so `process_markdown_file` reports success and
writes that string into the file as the front-matter summary. -/
theorem c10_unsupported_model_type (m : AIModel) (net : String → Except String String)
    (content : String) (max_length : Nat) (prompt_template : String)
    (path disk : String)
    (h1 : m.model_type ≠ "openai") (h2 : m.model_type ≠ "anthropic")
    (h3 : m.model_type ≠ "gemini") :
    m.generate_summary net content max_length prompt_template =
      Except.ok unsupportedModelError ∧
    (process_markdown_file path disk none (some m.name)
        (fun c => m.generate_summary net c max_length prompt_template)).success = true ∧
    (process_markdown_file path disk none (some m.name)
        (fun c => m.generate_summary net c max_length prompt_template)).disk =
      composeContent unsupportedModelError (stripFrontMatter disk) := by
  have hg : ∀ c, m.generate_summary net c max_length prompt_template =
      Except.ok unsupportedModelError := by
    intro c
    rw [AIModel.generate_summary]
    simp [h1, h2, h3]
  refine ⟨hg content, ?_, ?_⟩ <;>
    simp [process_markdown_file, hg]

/-- Witness for C10 with the default `"generic"` model type. -/
theorem c10_unsupported_model_type_witness :
    (process_markdown_file "g.md" "Hello" none (some sampleGenericModel.name)
        (fun c => sampleGenericModel.generate_summary
          (fun _ => Except.error "no net") c 200 "len {max_length}: {content}")).disk =
      composeContent unsupportedModelError (stripFrontMatter "Hello") :=
  (c10_unsupported_model_type sampleGenericModel (fun _ => Except.error "no net")
    "Hello" 200 "len {max_length}: {content}" "g.md" "Hello"
    (by decide) (by decide) (by decide)).2.2

/-! Helper lemmas about serialization. -/

theorem adapterToDict_openai (c : AdapterCfg) (h : c.kind = PKind.openaiCompat) :
    adapterToDict c =
      ⟨c.name, c.base_url, c.api_key_name, some c.api_key, some c.models,
        some c.selected_model⟩ := by
  simp [adapterToDict, h]

theorem adapter_roundtrip (c : AdapterCfg) (h1 : c.kind = PKind.openaiCompat)
    (h2 : c.name ≠ "anthropic") (h3 : c.name ≠ "gemini")
    (h4 : c.api_key_name ≠ "") :
    adapterFromDict (adapterToDict c) = c := by
  rw [adapterToDict_openai c h1, adapterFromDict]
  rw [if_neg h2, if_neg h3]
  obtain ⟨kind, name, base_url, akn, ak, models, sel⟩ := c
  subst h1
  simp [orElseStr, h4]

theorem from_dict_fold :
    ∀ (l : List (String × AdapterCfg)) (acc : ModelManager),
      (∀ p ∈ l, p.1 = p.2.name ∧ p.2.kind = PKind.openaiCompat ∧
        p.2.name ≠ "anthropic" ∧ p.2.name ≠ "gemini" ∧ p.2.api_key_name ≠ "") →
      (∀ p ∈ l, p.2.name ∉ dictKeys acc.models) →
      (dictKeys l).Nodup →
      ((l.map (fun p => (p.1, adapterToDict p.2))).foldl
          (fun acc' p => acc'.add_model (adapterFromDict p.2)) acc).models =
        acc.models ++ l := by
  intro l
  induction l with
  | nil => intro acc _ _ _; simp
  | cons p l ih =>
    obtain ⟨k, cfg⟩ := p
    intro acc hgood hfresh hnodup
    obtain ⟨hk, hkind, hna, hng, hak⟩ := hgood (k, cfg) (List.mem_cons_self _ _)
    dsimp only at hk hkind hna hng hak
    subst hk
    have hrt : adapterFromDict (adapterToDict cfg) = cfg :=
      adapter_roundtrip cfg hkind hna hng hak
    simp only [List.map_cons, List.foldl_cons]
    have h1 : cfg.name ∉ dictKeys acc.models :=
      hfresh (cfg.name, cfg) (List.mem_cons_self _ _)
    have hins : (acc.add_model cfg).models = acc.models ++ [(cfg.name, cfg)] := by
      show dictInsert cfg.name cfg acc.models = _
      exact dictInsert_of_not_mem cfg acc.models h1
    have hnd : cfg.name ∉ dictKeys l ∧ (dictKeys l).Nodup := by
      rw [dictKeys, List.map_cons] at hnodup
      exact List.nodup_cons.mp hnodup
    rw [hrt]
    rw [ih (acc.add_model cfg) (fun q hq => hgood q (List.mem_cons_of_mem _ hq)) ?_ hnd.2]
    · rw [hins]
      simp
    · intro q hq
      rw [hins, dictKeys, List.map_append]
      intro hmem
      rcases List.mem_append.mp hmem with hm | hm
      · exact hfresh q (List.mem_cons_of_mem _ hq) hm
      · have hqc : q.2.name = cfg.name := by simpa using hm
        have hq1 : q.1 = q.2.name := (hgood q (List.mem_cons_of_mem _ hq)).1
        have hqk : q.1 ∈ dictKeys l := List.mem_map_of_mem Prod.fst hq
        rw [hq1, hqc] at hqk
        exact hnd.1 hqk

/-- C6 counterexample: serializing a registry whose (OpenAI-compatible)
adapter is named `"anthropic"` and deserializing it yields a DIFFERENT
registry — name-based dispatch turns the entry into the Anthropic variant and
resets its model list and selection to the class defaults. -/
theorem c6_roundtrip_counterexample :
    ModelManager.from_dict (ModelManager.to_dict mmNamedAnthropic) ≠
      mmNamedAnthropic ∧
    Option.map (fun c => c.kind)
        (dictGet "anthropic"
          (ModelManager.from_dict (ModelManager.to_dict mmNamedAnthropic)).models) =
      some PKind.anthropic ∧
    Option.map (fun c => c.selected_model)
        (dictGet "anthropic"
          (ModelManager.from_dict (ModelManager.to_dict mmNamedAnthropic)).models) =
      some "claude-3-opus-20240229" := by
  refine ⟨by decide, by decide, by decide⟩

/-- C6 (amended): serialize-then-deserialize is the identity on every
well-formed `1.py` registry whose adapters are all OpenAI-compatible with
names other than `"anthropic"`/`"gemini"` (which is everything the program's
own add dialog can create, except those two reserved names), and on every
`App.py` `AIModel`; for `"anthropic"`/`"gemini"`-named entries the name-based
dispatch rebuilds the class-default variant instead, so the unrestricted
round-trip fails. -/
theorem c6_roundtrip_amended :
    (∀ mm : ModelManager,
      (∀ p ∈ mm.models, p.1 = p.2.name ∧ p.2.kind = PKind.openaiCompat ∧
        p.2.name ≠ "anthropic" ∧ p.2.name ≠ "gemini" ∧ p.2.api_key_name ≠ "") →
      (dictKeys mm.models).Nodup →
      (match mm.active_model with
       | some a => a ≠ "" ∧ a ∈ dictKeys mm.models
       | none => mm.models = []) →
      ModelManager.from_dict (ModelManager.to_dict mm) = mm) ∧
    (∀ m : AIModel, m.api_key_name ≠ "" →
      AIModel.from_dict (AIModel.to_dict m) = m) := by
  constructor
  · intro mm hgood hnodup hactive
    obtain ⟨M, A⟩ := mm
    have hfold : (fromDictFold (ModelManager.to_dict ⟨M, A⟩)).models = M := by
      have h := from_dict_fold M ⟨[], none⟩ hgood
        (by intro p _; simp [dictKeys]) hnodup
      simpa [fromDictFold, ModelManager.to_dict] using h
    cases hA : A with
    | none =>
      subst hA
      have hM : M = [] := hactive
      subst hM
      rfl
    | some a =>
      subst hA
      have hac : a ≠ "" ∧ a ∈ dictKeys M := hactive
      show (if a ≠ "" ∧
            (dictGet a (fromDictFold (ModelManager.to_dict ⟨M, some a⟩)).models).isSome
          then { fromDictFold (ModelManager.to_dict ⟨M, some a⟩) with
                  active_model := some a }
          else fromDictFold (ModelManager.to_dict ⟨M, some a⟩)) = ⟨M, some a⟩
      rw [if_pos ⟨hac.1, by rw [hfold]; exact mem_dictKeys_iff.mp hac.2⟩]
      cases hfd : fromDictFold (ModelManager.to_dict ⟨M, some a⟩) with
      | mk FM FA =>
        rw [hfd] at hfold
        have hFM : FM = M := hfold
        subst hFM
        rfl
  · intro m hak
    obtain ⟨name, burl, akn, ak, models, sel, mt⟩ := m
    rw [AIModel.to_dict, AIModel.from_dict]
    simp [orElseStr, hak]

/-- Witness for C6 (amended) on a concrete two-adapter registry and a
concrete `App.py` model. -/
theorem c6_roundtrip_amended_witness :
    ModelManager.from_dict (ModelManager.to_dict mmPair) = mmPair ∧
    AIModel.from_dict (AIModel.to_dict sampleAIModelA) = sampleAIModelA :=
  ⟨c6_roundtrip_amended.1 mmPair (by decide) (by decide)
      (show "A" ≠ "" ∧ "A" ∈ dictKeys mmPair.models by decide),
   c6_roundtrip_amended.2 sampleAIModelA (by decide)⟩

end MdUse
